import Mathlib

/-!
Shallow embedding of the graphql-exporter collection engine (the
`internal/prometheus` collector file: `newGraphqlCollector`, `getMetrics`,
`updateMetrics`, `atomicUpdate`, `Collect`), together with the configuration
types from `internal/config/config.go`.  Machine floats are modelled as
rationals; Go maps keyed by label-value tuples are modelled as association
lists; the mutex-serialized critical sections are modelled as atomic steps of
explicit state-passing functions, and the cross-goroutine locking discipline
as a small-step transition relation.
-/

namespace GraphqlExporter

/-- A label-value tuple: the ordered list of label values identifying one
child time series inside a `MetricVec`. -/
abbrev LabelTuple := List String

/-- Decimal digit test, as used when parsing a numeral. -/
def isDigitChar (c : Char) : Bool := '0' ≤ c && c ≤ '9'

/-- Value of a digit string, most significant first. -/
def digitsToNat (l : List Char) : Nat :=
  l.foldl (fun a c => a * 10 + (c.toNat - 48)) 0

/-- Split a character list at the first dot: returns the part before it and,
when a dot occurs, the part after it. -/
def splitAtDot : List Char → List Char × Option (List Char)
  | [] => ([], none)
  | c :: cs =>
    if c = '.' then ([], some cs)
    else
      let r := splitAtDot cs
      (c :: r.1, r.2)

/-- Model of Go `strconv.ParseFloat` (standard library, external to this
repository) on plain decimal numerals: an optional sign, then digits with at
most one decimal point and at least one digit; `none` models Go returning a
non-nil error (in which case Go also returns the value 0).  The exotic forms
Go additionally accepts (exponents, hex floats, Inf/NaN, underscores) are not
exercised by any input considered here. -/
def parseFloat (s : String) : Option ℚ :=
  let cs := s.data
  let signed : ℚ × List Char :=
    match cs with
    | '-' :: r => (-1, r)
    | '+' :: r => (1, r)
    | r => (1, r)
  let ipfp := splitAtDot signed.2
  let ip := ipfp.1
  let fp := ipfp.2.getD []
  if (ip.all isDigitChar && fp.all isDigitChar) && !(ip.isEmpty && fp.isEmpty) then
    some (signed.1 * ((digitsToNat ip : ℚ) + (digitsToNat fp : ℚ) / (10 : ℚ) ^ fp.length))
  else
    none

/-- The fixed, shared histogram bucket boundaries (`latencyHistogramBuckets`,
line 21 of the collector file). -/
def latencyHistogramBuckets : List ℚ :=
  [0.1, 0.25, 0.5, 1, 2.5, 5, 10, 15, 20, 30, 40, 50, 60, 90, 150, 210, 270,
   330, 390, 450, 500, 600, 1200, 1800, 2700, 3600]

/-- The identifying options a collector is constructed with
(`prometheus.HistogramOpts` / `prometheus.GaugeOpts`). -/
structure CollectorOpts where
  nspace : String
  subsystem : String
  name : String
  help : String
deriving Repr, DecidableEq

/-- Look up the value stored for a label tuple in a collector's child map. -/
def lookupTuple {α : Type} : List (LabelTuple × α) → LabelTuple → Option α
  | [], _ => none
  | (k2, v) :: t, k => if k2 = k then some v else lookupTuple t k

/-- Gauge `WithLabelValues(...).Set(v)`: overwrite the child value for the
tuple, creating the child when absent. -/
def setTuple : List (LabelTuple × ℚ) → LabelTuple → ℚ → List (LabelTuple × ℚ)
  | [], k, v => [(k, v)]
  | (k2, v2) :: t, k, v =>
    if k2 = k then (k2, v) :: t else (k2, v2) :: setTuple t k v

/-- Counter `WithLabelValues(...).Add(v)`: add to the child value for the
tuple, a fresh child starting from 0. -/
def addTuple : List (LabelTuple × ℚ) → LabelTuple → ℚ → List (LabelTuple × ℚ)
  | [], k, v => [(k, v)]
  | (k2, v2) :: t, k, v =>
    if k2 = k then (k2, v2 + v) :: t else (k2, v2) :: addTuple t k v

/-- Histogram `WithLabelValues(...).Observe(v)`: append an observation to the
child distribution for the tuple, a fresh child starting empty. -/
def observeTuple : List (LabelTuple × List ℚ) → LabelTuple → ℚ →
    List (LabelTuple × List ℚ)
  | [], k, v => [(k, [v])]
  | (k2, vs) :: t, k, v =>
    if k2 = k then (k2, vs ++ [v]) :: t else (k2, vs) :: observeTuple t k v

/-- State of one `prometheus.Collector` handle, one constructor per dynamic
type the source instantiates or dispatches on: `prometheus.HistogramVec`
(per-tuple observation multisets), `prometheus.GaugeVec` (per-tuple last set
value), `prometheus.CounterVec` (per-tuple accumulated sum). -/
inductive Collector where
  | histogramVec (opts : CollectorOpts) (labelNames : List String)
      (buckets : List ℚ) (obs : List (LabelTuple × List ℚ))
  | gaugeVec (opts : CollectorOpts) (labelNames : List String)
      (values : List (LabelTuple × ℚ))
  | counterVec (opts : CollectorOpts) (labelNames : List String)
      (values : List (LabelTuple × ℚ))
deriving Repr, DecidableEq

/-- The counter-branch coercion of `callbackFunc` (lines 171-174): parse the
string; on parse error, or a negative parsed value, the increment becomes 1;
otherwise it is the parsed value. -/
def counterIncrement (value : String) : ℚ :=
  match parseFloat value with
  | none => 1
  | some f => if f < 0 then 1 else f

/-- The per-sample callback `callbackFunc` given to
`m.Extractor.ExtractMetrics` (lines 153-179).  An empty string value returns
without touching the collector.  In the histogram and gauge branches the
`strconv.ParseFloat` error is only logged and execution falls through, so a
failed parse applies the Go zero value 0 (`Observe(0)` / `Set(0)`).  The
counter branch coerces the increment (error or negative becomes 1) and adds
it. -/
def callbackFunc (c : Collector) (value : String) (labels : List String) :
    Collector :=
  if value = "" then c
  else
    match c with
    | .histogramVec opts ln buckets obs =>
        let f := (parseFloat value).getD 0
        .histogramVec opts ln buckets (observeTuple obs labels f)
    | .gaugeVec opts ln values =>
        let f := (parseFloat value).getD 0
        .gaugeVec opts ln (setTuple values labels f)
    | .counterVec opts ln values =>
        .counterVec opts ln (addTuple values labels (counterIncrement value))

/-- Fuel-driven core of string replacement: scan the character list left to
right; whenever the (nonempty) pattern `old` is a prefix, emit `new`, drop the
matched characters and continue after them; otherwise keep one character.  A
fuel of the list's length suffices because every step consumes at least one
character. -/
def replaceFuel (old new : List Char) : Nat → List Char → List Char
  | 0, cs => cs
  | _ + 1, [] => []
  | fuel + 1, c :: rest =>
    if old.isPrefixOf (c :: rest) then
      new ++ replaceFuel old new fuel ((c :: rest).drop old.length)
    else
      c :: replaceFuel old new fuel rest

/-- Model of Go `strings.Replace(s, old, new, -1)` (standard library): replace
every non-overlapping occurrence of `old`, leftmost first, scanning on after
each replacement.  The source only ever calls it with the nonempty patterns
`","`, `".*."` and `"."`, so Go's special empty-pattern behaviour is not
modelled. -/
def replaceAll (s old new : String) : String :=
  if old.isEmpty then s
  else ⟨replaceFuel old.data new.data s.data.length s.data⟩

/-- A decoded JSON value, modelling `interface{}` values produced by
`encoding/json`. -/
inductive GqlValue where
  | null
  | str (s : String)
  | num (q : ℚ)
  | boolean (b : Bool)
  | arr (elems : List GqlValue)
  | obj (fields : List (String × GqlValue))

/-- The decoded `"data"` object: Go `map[string]interface{}` as an association
list.  A nil map is `none` at the `Option Data` use sites. -/
abbrev Data := List (String × GqlValue)

/-- The compiled path extractor.  Its implementation (`NewExtractor`,
`GetSortedPaths`, `ExtractMetrics`) is code of this repository that is not
among the embedded sources; the collector file only consumes this interface:
`sortedPaths` is what `GetSortedPaths()` returns and `emits d` is the sequence
of (value, label tuple) pairs `ExtractMetrics(d, callback)` hands to the
callback. -/
structure Extractor where
  sortedPaths : List String
  emits : Data → List (String × LabelTuple)

/-- `config.Metric` from `internal/config/config.go`. -/
structure MetricConfig where
  description : String
  metricType : String
  placeholder : String
  labels : List String
  value : String
  name : String
deriving Repr, DecidableEq

/-- `config.Query` from `internal/config/config.go`. -/
structure QueryConfig where
  query : String
  subsystem : String
  metrics : List MetricConfig

/-- `config.Cfg` from `internal/config/config.go` (the fields the collector
engine reads; `metricsPre` embeds the `MetricsPrefix` field). -/
structure Cfg where
  metricsPre : String
  graphqlURL : String
  cacheExpire : ℤ
  queryTimeout : ℤ
  failFast : Bool
  extendCacheOnError : Bool
  labelPathSeparator : String
  queries : List QueryConfig

/-- The `Metric` struct of the collector file (lines 32-36): a collector
handle, the metric's configuration and its compiled extractor. -/
structure Metric where
  collector : Collector
  config : MetricConfig
  extractor : Extractor

/-- The `QuerySet` struct of the collector file (lines 27-30). -/
structure QuerySet where
  query : String
  metrics : List Metric

/-- `newGraphqlCollector` (lines 52-119), building the cached query sets.  The
per-metric call to `NewExtractor` is code outside the embedded sources, so its
result is supplied by the environment `newExtractor`, returning the extractor
value together with `some` error message when compilation failed.  The loop
body only logs that error (line 64) and falls through: the metric is appended
to the compiled set either way.  The collector switch (lines 78-99) has
exactly two arms: `histogram` builds a `HistogramVec` with the shared
`latencyHistogramBuckets`, and the `default` arm builds a `GaugeVec`. -/
def newGraphqlCollector (cfg : Cfg)
    (newExtractor : String → String → List String → Extractor × Option String) :
    List QuerySet :=
  cfg.queries.map (fun q =>
    { query := q.query
      metrics := q.metrics.map (fun m =>
        let er := newExtractor cfg.labelPathSeparator m.value m.labels
        let name :=
          if m.name = "" then cfg.metricsPre ++ replaceAll m.value "," "_"
          else m.name
        let labels := er.1.sortedPaths.map (fun l =>
          replaceAll (replaceAll l ".*." "_") "." "_")
        let opts : CollectorOpts :=
          { nspace := cfg.metricsPre, subsystem := q.subsystem,
            name := name, help := m.description }
        let collector :=
          if m.metricType = "histogram" then
            Collector.histogramVec opts labels latencyHistogramBuckets []
          else
            Collector.gaugeVec opts labels []
        { collector := collector, config := m, extractor := er.1 }) })

/-- The `Graphql` struct (lines 23-25) the query response unmarshals into:
`Data map[string]interface{}`, with `none` modelling a nil map. -/
structure Graphql where
  data : Option Data

/-- Outcome of the transport and JSON decoding of one query in a refresh
pass — the pass's environment, supplied per query set in order:
`transportErr` models `graphql.GraphqlQuery` (transport, outside the embedded
sources) returning an error; `unmarshalErr` models `json.Unmarshal` failing;
`ok df` models a response that unmarshals successfully as a JSON object,
where `df = none` means the object has no `"data"` key, `df = some none`
means `"data"` is JSON `null`, and `df = some (some d)` means `"data"` is the
object `d`. -/
inductive QueryOutcome where
  | transportErr (e : String)
  | unmarshalErr (e : String)
  | ok (dataField : Option (Option Data))

/-- Write one key of a decoded `"data"` map. -/
def setKey : Data → String → GqlValue → Data
  | [], k, v => [(k, v)]
  | (k2, v2) :: t, k, v =>
    if k2 = k then (k2, v) :: t else (k2, v2) :: setKey t k v

/-- Read one key of a decoded `"data"` map. -/
def lookupKey : Data → String → Option GqlValue
  | [], _ => none
  | (k2, v) :: t, k => if k2 = k then some v else lookupKey t k

/-- How `encoding/json` unmarshals a JSON object into the map field: a nil map
is freshly allocated, a non-nil map is reused keeping its existing entries,
with the incoming keys written over it. -/
def mergeData (old : Option Data) (incoming : Data) : Data :=
  match old with
  | none => incoming
  | some m => incoming.foldl (fun acc kv => setKey acc kv.1 kv.2) m

/-- The `Data` field seen through the possibly-nil `*Graphql` pointer. -/
def prevData : Option Graphql → Option Data
  | none => none
  | some g => g.data

/-- Model of `json.Unmarshal(result, &gql)` at line 138, where `gql : *Graphql`
is the loop-shared pointer (line 122) and may be non-nil from an earlier
iteration: `Unmarshal` reuses the pointed-to struct and touches only the
fields present in the JSON, so an absent `"data"` key leaves the previous
`Data` bound; a JSON `null` under `"data"` sets the map field to nil; an
object under `"data"` merges into the existing map. -/
def unmarshalInto (gql : Option Graphql) (dataField : Option (Option Data)) :
    Graphql :=
  match dataField with
  | none => { data := prevData gql }
  | some none => { data := none }
  | some (some d) => { data := some (mergeData (prevData gql) d) }

/-- Application of `m.Extractor.ExtractMetrics(data, callbackFunc)` (line
180): the extractor invokes the callback once per emitted (value, label
tuple) pair, each call mutating the metric's collector. -/
def extractToCollector (m : Metric) (d : Data) : Metric :=
  { m with
    collector := (m.extractor.emits d).foldl
      (fun c p => callbackFunc c p.1 p.2) m.collector }

/-- `getMetrics` (lines 121-184): the loop over the cached query sets, with
the loop-shared `gql` pointer threaded explicitly and each query set paired
with its transport/decode outcome.  Returns the query sets (their collectors
updated in place in the source), the final `gql`, and the returned error,
which is `some e` exactly when `failFast` aborted the pass; on such an abort
the failing and all later query sets are left untouched.  With `failFast`
unset an error is only logged and the loop continues, `gql` unchanged. -/
def getMetrics (failFast : Bool) (gql : Option Graphql) :
    List (QuerySet × QueryOutcome) →
    List QuerySet × Option Graphql × Option String
  | [] => ([], gql, none)
  | (q, outcome) :: rest =>
    match outcome with
    | .transportErr e =>
      if failFast then (q :: rest.map Prod.fst, gql, some e)
      else
        let r := getMetrics failFast gql rest
        (q :: r.1, r.2.1, r.2.2)
    | .unmarshalErr e =>
      if failFast then (q :: rest.map Prod.fst, gql, some e)
      else
        let r := getMetrics failFast gql rest
        (q :: r.1, r.2.1, r.2.2)
    | .ok dataField =>
      let g2 := unmarshalInto gql dataField
      match g2.data with
      | none =>
        let r := getMetrics failFast (some g2) rest
        (q :: r.1, r.2.1, r.2.2)
      | some d =>
        let q2 := { q with metrics := q.metrics.map (fun m => extractToCollector m d) }
        let r := getMetrics failFast (some g2) rest
        (q2 :: r.1, r.2.1, r.2.2)

/-- The mutable cache owned by the collector: the compiled query sets with
their collector states, and the last-refresh Unix timestamp `cachedAt`. -/
structure CacheState where
  cachedQuerySet : List QuerySet
  cachedAt : ℤ

/-- `updateMetrics` (lines 188-204).  The wall clock is read twice: `tGuard`
models the `time.Now().Unix()` of the expiry guard at line 189 (the instant
the refresh pass starts) and `tDone` the `time.Now().Unix()` read after
`getMetrics` has returned (lines 196 and 200, the instant the pass finished).
On an error from `getMetrics` the timestamp is advanced (to `tDone`) only
when `extendCacheOnError` is set; on success it is always advanced to
`tDone`. -/
def updateMetrics (cacheExpire : ℤ) (extendCacheOnError failFast : Bool)
    (tGuard tDone : ℤ) (env : List QueryOutcome) (st : CacheState) :
    CacheState × Option String :=
  if tGuard - st.cachedAt > cacheExpire then
    let r := getMetrics failFast none (st.cachedQuerySet.zip env)
    match r.2.2 with
    | some e =>
      ({ cachedQuerySet := r.1,
         cachedAt := if extendCacheOnError then tDone else st.cachedAt }, some e)
    | none => ({ cachedQuerySet := r.1, cachedAt := tDone }, none)
  else (st, none)

/-- The `updaterMu`-guarded section of `atomicUpdate` (lines 207-210): read
`start := !updaterIsRunning`, then set the flag.  Returns (`start`, new flag
value).  The mutex serializes concurrent executions of this section, so
concurrent invocations are modelled as consecutive steps. -/
def atomicUpdateStep (updaterIsRunning : Bool) : Bool × Bool :=
  (!updaterIsRunning, true)

/-- N serialized invocations of `atomicUpdate` starting from a given flag
state: returns how many background refresh tasks were spawned (the `go func`
at line 212 runs exactly when `start` was true) and the final flag value. -/
def atomicUpdateN : Nat → Bool → Nat × Bool
  | 0, running => (0, running)
  | n + 1, running =>
    let s := atomicUpdateStep running
    let r := atomicUpdateN n s.2
    ((if s.1 then 1 else 0) + r.1, r.2)

/-- The spawned refresh task (lines 212-217): run `updateMetrics`, discard its
error, then clear `updaterIsRunning` under the mutex.  Returns the new cache
state and the final flag value. -/
def refreshTask (cacheExpire : ℤ) (extendCacheOnError failFast : Bool)
    (tGuard tDone : ℤ) (env : List QueryOutcome) (st : CacheState) :
    CacheState × Bool :=
  ((updateMetrics cacheExpire extendCacheOnError failFast tGuard tDone env st).1,
   false)

/-- One collector streamed by `Collect`'s switch (lines 227-236): the
streamed snapshot is the collector's current state; a `HistogramVec` is
`Reset()` right after being streamed, the other kinds are left as they are. -/
def collectOne : Collector → Collector × Collector
  | .histogramVec opts ln buckets obs =>
      (.histogramVec opts ln buckets obs, .histogramVec opts ln buckets [])
  | .gaugeVec opts ln vs => (.gaugeVec opts ln vs, .gaugeVec opts ln vs)
  | .counterVec opts ln vs => (.counterVec opts ln vs, .counterVec opts ln vs)

/-- The emission loop of `Collect` (lines 225-238), run while holding
`accessMu`: every metric of every cached query set streams its collector
state to the scrape channel, histograms being reset right after.  Returns the
streamed snapshots in order and the updated query sets. -/
def collectEmission (sets : List QuerySet) : List Collector × List QuerySet :=
  ((sets.map (fun q => q.metrics.map (fun m => (collectOne m.collector).1))).flatten,
   sets.map (fun q =>
     { q with metrics := q.metrics.map (fun m =>
         { m with collector := (collectOne m.collector).2 }) }))

/-- All collector states of the cached query sets, in emission order. -/
def allCollectors (sets : List QuerySet) : List Collector :=
  (sets.map (fun q => q.metrics.map (fun m => m.collector))).flatten

/-- Per-collector description of its state after one scrape has streamed it:
histograms emptied, gauges and counters untouched. -/
def afterScrape : Collector → Collector
  | .histogramVec opts ln buckets _ => .histogramVec opts ln buckets []
  | .gaugeVec opts ln vs => .gaugeVec opts ln vs
  | .counterVec opts ln vs => .counterVec opts ln vs

/-- Which goroutine currently holds `accessMu`. -/
inductive MuHolder where
  | refresher
  | scraper
deriving Repr, DecidableEq

/-- Program counter of the background refresh task: `notSpawned` (no task
exists), `atGuard` (spawned, expiry guard passed, about to execute
`accessMu.Lock()` at line 190), `inGetMetrics` (holding `accessMu`, inside
`getMetrics` with its remote queries; the deferred unlock at line 191 runs
when `updateMetrics` returns). -/
inductive RefresherPC where
  | notSpawned
  | atGuard
  | inGetMetrics
deriving Repr, DecidableEq

/-- Program counter of a scrape goroutine running `Collect`: `atTrigger` (at
the `atomicUpdate` call, line 222), `atLock` (at `accessMu.Lock()`, line 223),
`streaming` (holding `accessMu`, streaming the cached collectors), `finished`. -/
inductive ScraperPC where
  | atTrigger
  | atLock
  | streaming
  | finished
deriving Repr, DecidableEq

/-- Joint state of one scrape goroutine, the refresh task it may spawn, and
the `accessMu` mutex. -/
structure ConcState where
  refresher : RefresherPC
  scraper : ScraperPC
  muHolder : Option MuHolder
deriving Repr, DecidableEq

/-- Interleaving semantics of `Collect` and the refresh task, at the
granularity of the `accessMu` critical sections of the source: `trigger` is
the non-blocking `atomicUpdate` call (it spawns the refresh task when none is
running and returns without waiting); `refresherLock` is the refresh task
acquiring `accessMu` (line 190, enabled only while no one holds the mutex);
`refresherFinish` is `getMetrics` returning, the deferred unlock releasing
`accessMu` and the flag being cleared; `scraperLock` is `Collect` acquiring
`accessMu` for emission (line 223, enabled only while no one holds the
mutex); `scraperFinish` releases it after streaming. -/
inductive ConcStep : ConcState → ConcState → Prop where
  | trigger (s : ConcState) (h : s.scraper = .atTrigger) :
      ConcStep s { s with
        scraper := .atLock,
        refresher := if s.refresher = .notSpawned then .atGuard else s.refresher }
  | refresherLock (s : ConcState) (h1 : s.refresher = .atGuard)
      (h2 : s.muHolder = none) :
      ConcStep s { s with refresher := .inGetMetrics, muHolder := some .refresher }
  | refresherFinish (s : ConcState) (h : s.refresher = .inGetMetrics) :
      ConcStep s { s with refresher := .notSpawned, muHolder := none }
  | scraperLock (s : ConcState) (h1 : s.scraper = .atLock)
      (h2 : s.muHolder = none) :
      ConcStep s { s with scraper := .streaming, muHolder := some .scraper }
  | scraperFinish (s : ConcState) (h : s.scraper = .streaming) :
      ConcStep s { s with scraper := .finished, muHolder := none }

/-- Reachability along `ConcStep`. -/
inductive Reaches : ConcState → ConcState → Prop where
  | refl (s : ConcState) : Reaches s s
  | step (s t u : ConcState) : ConcStep s t → Reaches t u → Reaches s u

/-- Initial state: a scrape request arrives with no refresh task running and
the mutex free. -/
def initState : ConcState :=
  { refresher := .notSpawned, scraper := .atTrigger, muHolder := none }

theorem lookupTuple_addTuple_self (l : List (LabelTuple × ℚ)) (k : LabelTuple)
    (v : ℚ) :
    lookupTuple (addTuple l k v) k = some ((lookupTuple l k).getD 0 + v) := by
  induction l with
  | nil => simp [addTuple, lookupTuple]
  | cons hd t ih =>
    by_cases h : hd.1 = k
    · simp [addTuple, lookupTuple, h]
    · simp [addTuple, lookupTuple, h, ih]

theorem lookupTuple_addTuple_other (l : List (LabelTuple × ℚ))
    (k k2 : LabelTuple) (v : ℚ) (h : k2 ≠ k) :
    lookupTuple (addTuple l k v) k2 = lookupTuple l k2 := by
  have hne : k ≠ k2 := fun hh => h hh.symm
  induction l with
  | nil => simp [addTuple, lookupTuple, hne]
  | cons hd t ih =>
    by_cases h1 : hd.1 = k
    · simp [addTuple, lookupTuple, h1, hne]
    · simp [addTuple, lookupTuple, h1, ih]

/-- Claim C1.  The claim states that a gauge or histogram sample whose
extracted string fails to parse is dropped, leaving the collector unchanged
for that label tuple; the code instead only logs the `strconv.ParseFloat`
error and falls through (lines 159-163, 165-169), applying the Go zero value
0: on input `"abc"` the gauge child is `Set` to 0 (here overwriting a
previous 7) and the histogram child records an observation of 0, so the
collector does change. -/
theorem parse_failure_sample_still_applied :
    parseFloat "abc" = none ∧
    callbackFunc (.gaugeVec ⟨"p", "s", "n", "h"⟩ ["l"] [(["a"], 7)]) "abc" ["a"]
      = .gaugeVec ⟨"p", "s", "n", "h"⟩ ["l"] [(["a"], 0)] ∧
    callbackFunc (.gaugeVec ⟨"p", "s", "n", "h"⟩ ["l"] [(["a"], 7)]) "abc" ["a"]
      ≠ .gaugeVec ⟨"p", "s", "n", "h"⟩ ["l"] [(["a"], 7)] ∧
    callbackFunc (.histogramVec ⟨"p", "s", "n", "h"⟩ ["l"]
        latencyHistogramBuckets []) "abc" ["a"]
      = .histogramVec ⟨"p", "s", "n", "h"⟩ ["l"]
          latencyHistogramBuckets [(["a"], [0])] := by
  refine ⟨by decide, ?_, ?_, ?_⟩ <;>
    simp +decide [callbackFunc, setTuple, observeTuple]

/-- Claim C8.  For the counter branch of `callbackFunc` (lines 170-175): a
nonempty extracted string is always coerced and added (never set) to the
child for the resolved label tuple, other tuples untouched; the increment is
1 when parsing fails or the parsed value is negative, and the parsed value
otherwise; in particular `"-5"` and `"not-a-number"` yield 1 and `"3.5"`
yields 3.5. -/
theorem counter_coercion_add_semantics (opts : CollectorOpts)
    (ln : List String) (prev : List (LabelTuple × ℚ)) (value : String)
    (labels : LabelTuple) (hv : value ≠ "") :
    (callbackFunc (.counterVec opts ln prev) value labels =
       .counterVec opts ln (addTuple prev labels (counterIncrement value))) ∧
    lookupTuple (addTuple prev labels (counterIncrement value)) labels
      = some ((lookupTuple prev labels).getD 0 + counterIncrement value) ∧
    (∀ k, k ≠ labels →
       lookupTuple (addTuple prev labels (counterIncrement value)) k
         = lookupTuple prev k) ∧
    counterIncrement "-5" = 1 ∧
    counterIncrement "not-a-number" = 1 ∧
    counterIncrement "3.5" = 7 / 2 ∧
    (∀ s, parseFloat s = none → counterIncrement s = 1) ∧
    (∀ s v, parseFloat s = some v → v < 0 → counterIncrement s = 1) ∧
    (∀ s v, parseFloat s = some v → 0 ≤ v → counterIncrement s = v) := by
  refine ⟨by simp [callbackFunc, hv],
    lookupTuple_addTuple_self prev labels (counterIncrement value),
    fun k hk => lookupTuple_addTuple_other prev labels k (counterIncrement value) hk,
    by simp +decide [counterIncrement, parseFloat, splitAtDot, digitsToNat, isDigitChar],
    by simp +decide [counterIncrement, parseFloat, splitAtDot, digitsToNat, isDigitChar],
    by simp +decide [counterIncrement, parseFloat, splitAtDot, digitsToNat, isDigitChar]
       norm_num,
    fun s hs => by simp [counterIncrement, hs],
    fun s v hs hneg => by simp [counterIncrement, hs, hneg],
    fun s v hs hpos => by simp [counterIncrement, hs, not_lt.mpr hpos]⟩

/-- Witness for claim C8's theorem at the concrete input `"3.5"` on an empty
counter child map. -/
theorem counter_coercion_add_semantics_witness :
    callbackFunc (.counterVec ⟨"p", "s", "n", "h"⟩ [] []) "3.5" ["x"]
      = .counterVec ⟨"p", "s", "n", "h"⟩ []
          (addTuple [] ["x"] (counterIncrement "3.5")) ∧
    counterIncrement "3.5" = 7 / 2 :=
  ⟨(counter_coercion_add_semantics ⟨"p", "s", "n", "h"⟩ [] [] "3.5" ["x"]
      (by decide)).1,
   (counter_coercion_add_semantics ⟨"p", "s", "n", "h"⟩ [] [] "3.5" ["x"]
      (by decide)).2.2.2.2.2.1⟩

/-- Discriminator: is the collector a `HistogramVec`? -/
def isHistogramVec : Collector → Bool
  | .histogramVec _ _ _ _ => true
  | _ => false

/-- Discriminator: is the collector a `GaugeVec`? -/
def isGaugeVec : Collector → Bool
  | .gaugeVec _ _ _ => true
  | _ => false

/-- Discriminator: is the collector a `CounterVec`? -/
def isCounterVec : Collector → Bool
  | .counterVec _ _ _ => true
  | _ => false

/-- Counterexample to claim C2.  The claim states that a declared metric type
`"counter"` gets a collector with monotonic-increment (add) semantics; but the
collector switch of `newGraphqlCollector` (lines 78-99) has only a
`"histogram"` arm and a default arm, so a metric declared `"counter"` falls
into the default arm and is instantiated as a `GaugeVec` (set semantics), and
no `CounterVec` is ever instantiated. -/
theorem counter_metric_type_compiles_to_gauge :
    ((newGraphqlCollector
        { metricsPre := "pre", graphqlURL := "http://g", cacheExpire := 60,
          queryTimeout := 60, failFast := false, extendCacheOnError := false,
          labelPathSeparator := ",",
          queries := [{ query := "q", subsystem := "sub",
                        metrics := [{ description := "d",
                                      metricType := "counter",
                                      placeholder := "", labels := [],
                                      value := "a,b",
                                      name := "mycounter" }] }] }
        (fun _ _ _ => (⟨[], fun _ => []⟩, none))).map
      (fun q => q.metrics.map (fun m => m.collector)))
      = [[Collector.gaugeVec ⟨"pre", "sub", "mycounter", "d"⟩ [] []]] ∧
    isCounterVec (Collector.gaugeVec ⟨"pre", "sub", "mycounter", "d"⟩ [] [])
      = false ∧
    isGaugeVec (Collector.gaugeVec ⟨"pre", "sub", "mycounter", "d"⟩ [] [])
      = true := by
  refine ⟨?_, rfl, rfl⟩
  simp [newGraphqlCollector]

/-- Claim C2 as amended.  Every compiled metric's collector is typed by the
declared metric type: `"histogram"` yields a `HistogramVec` carrying the
fixed shared `latencyHistogramBuckets`; every other declared type — including
`"counter"` — or an unset type yields a `GaugeVec`. -/
theorem compiled_collector_typing (cfg : Cfg)
    (env : String → String → List String → Extractor × Option String)
    (q : QuerySet) (hq : q ∈ newGraphqlCollector cfg env)
    (m : Metric) (hm : m ∈ q.metrics) :
    (m.config.metricType = "histogram" →
      ∃ opts ln, m.collector = .histogramVec opts ln latencyHistogramBuckets []) ∧
    (m.config.metricType ≠ "histogram" →
      ∃ opts ln, m.collector = .gaugeVec opts ln []) := by
  simp only [newGraphqlCollector, List.mem_map] at hq
  obtain ⟨qc, hqc, rfl⟩ := hq
  simp only [List.mem_map] at hm
  obtain ⟨mc, hmc, rfl⟩ := hm
  constructor
  · intro ht
    simp only at ht
    simp only [ht, if_pos]
    exact ⟨_, _, rfl⟩
  · intro ht
    simp only at ht
    simp only [if_neg ht]
    exact ⟨_, _, rfl⟩

/-- Witness for claim C2's amended theorem on a concrete configuration with a
histogram metric and a gauge-defaulted metric. -/
theorem compiled_collector_typing_witness :
    (∃ opts ln, (Collector.histogramVec ⟨"pre", "sub", "myhist", "d"⟩ []
        latencyHistogramBuckets [] : Collector)
        = .histogramVec opts ln latencyHistogramBuckets []) := by
  have h := compiled_collector_typing
    { metricsPre := "pre", graphqlURL := "http://g", cacheExpire := 60,
      queryTimeout := 60, failFast := false, extendCacheOnError := false,
      labelPathSeparator := ",",
      queries := [{ query := "q", subsystem := "sub",
                    metrics := [{ description := "d",
                                  metricType := "histogram",
                                  placeholder := "", labels := [],
                                  value := "a,b", name := "myhist" }] }] }
    (fun _ _ _ => (⟨[], fun _ => []⟩, none))
    { query := "q",
      metrics := [{ collector := Collector.histogramVec
                      ⟨"pre", "sub", "myhist", "d"⟩ [] latencyHistogramBuckets [],
                    config := { description := "d", metricType := "histogram",
                                placeholder := "", labels := [],
                                value := "a,b", name := "myhist" },
                    extractor := ⟨[], fun _ => []⟩ }] }
    (by simp [newGraphqlCollector])
    { collector := Collector.histogramVec
        ⟨"pre", "sub", "myhist", "d"⟩ [] latencyHistogramBuckets [],
      config := { description := "d", metricType := "histogram",
                  placeholder := "", labels := [],
                  value := "a,b", name := "myhist" },
      extractor := ⟨[], fun _ => []⟩ }
    (by simp)
  exact h.1 rfl

/-- Claim C7.  The claim (and the spec) state that a metric whose
`NewExtractor` compilation fails is dropped from the compiled set; the code
instead only logs the error (line 64, no `continue`) and falls through, so
the metric is appended to the compiled set anyway, bound to whatever
extractor value `NewExtractor` returned alongside the error. -/
theorem extractor_compile_error_metric_kept :
    ((newGraphqlCollector
        { metricsPre := "pre", graphqlURL := "http://g", cacheExpire := 60,
          queryTimeout := 60, failFast := false, extendCacheOnError := false,
          labelPathSeparator := ",",
          queries := [{ query := "q2", subsystem := "sub2",
                        metrics := [{ description := "d2",
                                      metricType := "",
                                      placeholder := "",
                                      labels := ["bad,*,path"],
                                      value := "x,y",
                                      name := "badmetric" }] }] }
        (fun _ _ _ => (⟨[], fun _ => []⟩, some "unmatched wildcard"))).map
      (fun q => q.metrics.map (fun m => (m.config.name, m.collector))))
      = [[("badmetric",
           Collector.gaugeVec ⟨"pre", "sub2", "badmetric", "d2"⟩ [] [])]] := by
  simp [newGraphqlCollector]

theorem atomicUpdateN_true (n : Nat) : atomicUpdateN n true = (0, true) := by
  induction n with
  | zero => rfl
  | succ k ih => simp [atomicUpdateN, atomicUpdateStep, ih]

/-- Claim C3.  Single flight: starting from the idle flag state, any positive
number of serialized `atomicUpdate` invocations spawns exactly one refresh
task and leaves the flag set; while a refresh is outstanding (flag set),
further invocations spawn no task; and the spawned task always ends with the
flag cleared, whatever `updateMetrics` did. -/
theorem refresh_single_flight :
    (∀ n : Nat, atomicUpdateN (n + 1) false = (1, true)) ∧
    (∀ n : Nat, atomicUpdateN n true = (0, true)) ∧
    (∀ (cacheExpire : ℤ) (extendCacheOnError failFast : Bool)
       (tGuard tDone : ℤ) (env : List QueryOutcome) (st : CacheState),
       (refreshTask cacheExpire extendCacheOnError failFast tGuard tDone env
          st).2 = false) := by
  refine ⟨fun n => ?_, atomicUpdateN_true, fun _ _ _ _ _ _ _ => rfl⟩
  simp [atomicUpdateN, atomicUpdateStep, atomicUpdateN_true n]

theorem collectOne_fst (c : Collector) : (collectOne c).1 = c := by
  cases c <;> rfl

theorem collectOne_snd (c : Collector) : (collectOne c).2 = afterScrape c := by
  cases c <;> rfl

/-- Claim C4.  One scrape emission streams exactly the currently cached
collector states, in order; afterwards every histogram collector is empty
while gauges and counters are exactly as before (`afterScrape` changes only
the histogram constructor's observations); and a second emission with no
intervening refresh therefore streams the emptied histograms. -/
theorem histogram_reset_after_scrape (sets : List QuerySet) :
    (collectEmission sets).1 = allCollectors sets ∧
    allCollectors (collectEmission sets).2 = (allCollectors sets).map afterScrape ∧
    (collectEmission (collectEmission sets).2).1
      = (allCollectors sets).map afterScrape ∧
    (∀ (opts : CollectorOpts) (ln : List String) (buckets : List ℚ)
       (obs : List (LabelTuple × List ℚ)),
       afterScrape (.histogramVec opts ln buckets obs)
         = .histogramVec opts ln buckets []) ∧
    (∀ (opts : CollectorOpts) (ln : List String)
       (vs : List (LabelTuple × ℚ)),
       afterScrape (.gaugeVec opts ln vs) = .gaugeVec opts ln vs) ∧
    (∀ (opts : CollectorOpts) (ln : List String)
       (vs : List (LabelTuple × ℚ)),
       afterScrape (.counterVec opts ln vs) = .counterVec opts ln vs) := by
  have h1 : ∀ ss : List QuerySet, (collectEmission ss).1 = allCollectors ss := by
    intro ss
    simp [collectEmission, allCollectors, collectOne_fst]
  have h2 : ∀ ss : List QuerySet,
      allCollectors (collectEmission ss).2 = (allCollectors ss).map afterScrape := by
    intro ss
    simp [collectEmission, allCollectors, collectOne_snd, List.map_flatten,
      List.map_map, Function.comp_def]
  refine ⟨h1 sets, h2 sets, ?_, fun _ _ _ _ => rfl, fun _ _ _ => rfl,
    fun _ _ _ => rfl⟩
  rw [h1, h2]

theorem getMetrics_append (ff : Bool) (gql : Option Graphql)
    (l1 l2 : List (QuerySet × QueryOutcome))
    (h : (getMetrics ff gql l1).2.2 = none) :
    getMetrics ff gql (l1 ++ l2)
      = ((getMetrics ff gql l1).1
           ++ (getMetrics ff (getMetrics ff gql l1).2.1 l2).1,
         (getMetrics ff (getMetrics ff gql l1).2.1 l2).2) := by
  induction l1 generalizing gql with
  | nil => simp [getMetrics]
  | cons hd t ih =>
    obtain ⟨q, outcome⟩ := hd
    cases outcome with
    | transportErr e =>
      cases ff with
      | true => simp [getMetrics] at h
      | false =>
        simp only [getMetrics, Bool.false_eq_true, if_false, List.cons_append] at h ⊢
        simp [ih gql h]
    | unmarshalErr e =>
      cases ff with
      | true => simp [getMetrics] at h
      | false =>
        simp only [getMetrics, Bool.false_eq_true, if_false, List.cons_append] at h ⊢
        simp [ih gql h]
    | ok df =>
      simp only [getMetrics, List.cons_append] at h ⊢
      cases hdata : (unmarshalInto gql df).data with
      | none =>
        simp only [hdata] at h ⊢
        simp [ih (some (unmarshalInto gql df)) h]
      | some d =>
        simp only [hdata] at h ⊢
        simp [ih (some (unmarshalInto gql df)) h]

/-- Claim C5.  In a refresh pass, with `failFast` set a transport error (and
likewise an unmarshal error) aborts the pass at the failing query set: the
error is returned, the failing and all later query sets are left untouched,
and the query sets already processed earlier in the pass keep their updates;
with `failFast` unset the error is only logged and the pass continues with
the next query set, the failing one keeping its previous collector states. -/
theorem failfast_aborts_else_continues (gql : Option Graphql)
    (front back : List (QuerySet × QueryOutcome)) (q : QuerySet) (e : String)
    (hfront : (getMetrics true gql front).2.2 = none) :
    (getMetrics true gql (front ++ (q, .transportErr e) :: back)
       = ((getMetrics true gql front).1 ++ q :: back.map Prod.fst,
          (getMetrics true gql front).2.1, some e)) ∧
    (getMetrics true gql (front ++ (q, .unmarshalErr e) :: back)
       = ((getMetrics true gql front).1 ++ q :: back.map Prod.fst,
          (getMetrics true gql front).2.1, some e)) ∧
    (getMetrics false gql ((q, .transportErr e) :: back)
       = (q :: (getMetrics false gql back).1,
          (getMetrics false gql back).2)) ∧
    (getMetrics false gql ((q, .unmarshalErr e) :: back)
       = (q :: (getMetrics false gql back).1,
          (getMetrics false gql back).2)) := by
  refine ⟨?_, ?_, by simp [getMetrics], by simp [getMetrics]⟩ <;>
    rw [getMetrics_append true gql front _ hfront] <;>
    simp [getMetrics]

/-- Witness for claim C5's theorem: one successful query updating a gauge,
then a transport-failing query, then one further query set that is not
attempted. -/
theorem failfast_aborts_else_continues_witness :
    getMetrics true none
      ([({ query := "q1",
           metrics := [{ collector := .gaugeVec ⟨"p", "s", "n", "h"⟩ ["l"] [],
                         config := { description := "d", metricType := "",
                                     placeholder := "", labels := [],
                                     value := "v", name := "n1" },
                         extractor := ⟨[], fun _ => [("1", ["x"])]⟩ }] },
         QueryOutcome.ok (some (some [("k", .str "v")])))]
        ++ ({ query := "qf", metrics := [] }, QueryOutcome.transportErr "boom")
          :: [({ query := "q2", metrics := [] }, QueryOutcome.ok none)])
      = ((getMetrics true none
            [({ query := "q1",
                metrics := [{ collector := .gaugeVec ⟨"p", "s", "n", "h"⟩ ["l"] [],
                              config := { description := "d", metricType := "",
                                          placeholder := "", labels := [],
                                          value := "v", name := "n1" },
                              extractor := ⟨[], fun _ => [("1", ["x"])]⟩ }] },
              QueryOutcome.ok (some (some [("k", .str "v")])))]).1
          ++ { query := "qf", metrics := [] }
          :: [({ query := "q2", metrics := [] }, QueryOutcome.ok none)].map
               Prod.fst,
         (getMetrics true none
            [({ query := "q1",
                metrics := [{ collector := .gaugeVec ⟨"p", "s", "n", "h"⟩ ["l"] [],
                              config := { description := "d", metricType := "",
                                          placeholder := "", labels := [],
                                          value := "v", name := "n1" },
                              extractor := ⟨[], fun _ => [("1", ["x"])]⟩ }] },
              QueryOutcome.ok (some (some [("k", .str "v")])))]).2.1,
         some "boom") := by
  refine (failfast_aborts_else_continues none _ _ _ "boom" ?_).1
  rfl

/-- Counterexample to claim C6.  The claim states that after a failed refresh
pass with `extendCacheOnError` set, the timestamp advances to the refresh's
start time; the code instead stamps a fresh `time.Now().Unix()` taken after
`getMetrics` returned (line 196), i.e. the pass's completion time: with the
guard-time 100 and completion time 105, the stored timestamp is 105, not
100. -/
theorem extend_cache_stamps_completion_time :
    updateMetrics 10 true true 100 105 [.transportErr "boom"]
        { cachedQuerySet := [{ query := "q", metrics := [] }], cachedAt := 0 }
      = ({ cachedQuerySet := [{ query := "q", metrics := [] }],
           cachedAt := 105 }, some "boom") ∧
    (105 : ℤ) ≠ 100 := by
  refine ⟨?_, by decide⟩
  simp [updateMetrics, getMetrics]

/-- Claim C6 as amended.  When the refresh is due: a pass that `getMetrics`
completes without returning an error stamps `cachedAt` with the wall-clock
instant read after the pass finished; a pass that returns an error stamps
that same completion instant when `extendCacheOnError` is set and leaves
`cachedAt` unchanged otherwise (so the next scrape finds the cache still
expired and retries immediately); when the refresh is not due, nothing
changes. -/
theorem update_metrics_timestamp_policy (cacheExpire : ℤ)
    (extendCacheOnError failFast : Bool) (tGuard tDone : ℤ)
    (env : List QueryOutcome) (st : CacheState)
    (hdue : tGuard - st.cachedAt > cacheExpire) :
    ((getMetrics failFast none (st.cachedQuerySet.zip env)).2.2 = none →
       updateMetrics cacheExpire extendCacheOnError failFast tGuard tDone env st
         = ({ cachedQuerySet :=
                (getMetrics failFast none (st.cachedQuerySet.zip env)).1,
              cachedAt := tDone }, none)) ∧
    (∀ e, (getMetrics failFast none (st.cachedQuerySet.zip env)).2.2 = some e →
       updateMetrics cacheExpire extendCacheOnError failFast tGuard tDone env st
         = ({ cachedQuerySet :=
                (getMetrics failFast none (st.cachedQuerySet.zip env)).1,
              cachedAt := if extendCacheOnError then tDone else st.cachedAt },
            some e)) ∧
    (∀ (t2 : ℤ) (st2 : CacheState), ¬(t2 - st2.cachedAt > cacheExpire) →
       updateMetrics cacheExpire extendCacheOnError failFast t2 tDone env st2
         = (st2, none)) := by
  refine ⟨fun hnone => ?_, fun e he => ?_, fun t2 st2 hnot => ?_⟩
  · simp [updateMetrics, hdue, hnone]
  · simp [updateMetrics, hdue, he]
  · simp [updateMetrics, hnot]

/-- Witness for claim C6's amended theorem: an empty, due cache refreshed
successfully at guard time 100 and completion time 105 stamps 105. -/
theorem update_metrics_timestamp_policy_witness :
    ((100 : ℤ) - 0 > 10) ∧
    updateMetrics 10 false false 100 105 [] { cachedQuerySet := [], cachedAt := 0 }
      = ({ cachedQuerySet := [], cachedAt := 105 }, none) :=
  ⟨by decide,
   by
     have h := (update_metrics_timestamp_policy 10 false false 100 105 []
       { cachedQuerySet := [], cachedAt := 0 } (by decide)).1 rfl
     simpa [getMetrics] using h⟩

theorem lookupKey_setKey_other (m : Data) (k k2 : String) (v : GqlValue)
    (h : k2 ≠ k) : lookupKey (setKey m k2 v) k = lookupKey m k := by
  induction m with
  | nil => simp [setKey, lookupKey, h]
  | cons hd t ih =>
    by_cases h1 : hd.1 = k2
    · simp [setKey, lookupKey, h1, h]
    · simp [setKey, lookupKey, h1, ih]

theorem lookupKey_mergeData_absent (m incoming : Data) (k : String)
    (h : lookupKey incoming k = none) :
    lookupKey (mergeData (some m) incoming) k = lookupKey m k := by
  induction incoming generalizing m with
  | nil => simp [mergeData]
  | cons hd t ih =>
    by_cases hk : hd.1 = k
    · simp [lookupKey, hk] at h
    · have h2 : lookupKey t k = none := by simpa [lookupKey, hk] using h
      have h3 := ih (setKey m hd.1 hd.2) h2
      simpa [mergeData] using
        h3.trans (lookupKey_setKey_other m k hd.1 hd.2 hk)

/-- Claim C10.  The `gql` pointer is declared once outside the query loop
(line 122) and reused by every `json.Unmarshal` in the pass: when a later
query's response unmarshals successfully but has no `"data"` key, the data
decoded for the earlier query stays bound and is handed to the later query's
metric extraction instead of the query set being skipped; and when the later
response's `"data"` object merely omits keys, the merge into the reused map
keeps the earlier entries for those keys. -/
theorem shared_gql_reuses_previous_data (failFast : Bool) (d : Data)
    (q1 q2 : QuerySet) (rest : List (QuerySet × QueryOutcome)) :
    ((getMetrics failFast none
        ((q1, .ok (some (some d))) :: (q2, .ok none) :: rest)).1
      = { q1 with metrics := q1.metrics.map (fun m => extractToCollector m d) }
        :: { q2 with metrics := q2.metrics.map (fun m => extractToCollector m d) }
        :: (getMetrics failFast (some { data := some d }) rest).1) ∧
    (∀ (m incoming : Data) (k : String), lookupKey incoming k = none →
       lookupKey (mergeData (some m) incoming) k = lookupKey m k) := by
  refine ⟨?_, lookupKey_mergeData_absent⟩
  simp [getMetrics, unmarshalInto, mergeData, prevData]

/-- Witness for claim C10's theorem: the key `"a"` decoded for an earlier
query survives a later response whose `"data"` object lacks it. -/
theorem shared_gql_reuses_previous_data_witness :
    lookupKey (mergeData (some [("a", GqlValue.str "1")])
        [("b", GqlValue.str "2")]) "a"
      = lookupKey [("a", GqlValue.str "1")] "a" :=
  (shared_gql_reuses_previous_data false [] { query := "q1", metrics := [] }
      { query := "q2", metrics := [] } []).2
    [("a", GqlValue.str "1")] [("b", GqlValue.str "2")] "a" rfl

/-- The state in which the spawned refresh task holds `accessMu` while
executing `getMetrics` and a scrape goroutine has reached the
`accessMu.Lock()` of `Collect`. -/
def blockedState : ConcState :=
  { refresher := .inGetMetrics, scraper := .atLock, muHolder := some .refresher }

theorem reaches_blockedState : Reaches initState blockedState :=
  .step _ _ _ (ConcStep.trigger initState rfl)
    (.step _ _ _ (ConcStep.refresherLock _ rfl rfl) (.refl _))

/-- Counterexample to claim C9.  The claim states that a scrape never blocks
on completion of a refresh; but `updateMetrics` holds `accessMu` across the
whole `getMetrics` pass (lines 190-192) and `Collect` must acquire the same
mutex before emitting (line 223), so in the reachable state where the spawned
refresh task is inside `getMetrics`, no step can move the scraper to
streaming: the scrape is blocked until the refresh finishes. -/
theorem scrape_blocked_by_inflight_refresh :
    Reaches initState blockedState ∧
    blockedState.refresher = .inGetMetrics ∧
    blockedState.scraper = .atLock ∧
    ¬ ∃ t, ConcStep blockedState t ∧ t.scraper = .streaming := by
  refine ⟨reaches_blockedState, rfl, rfl, ?_⟩
  rintro ⟨t, hstep, hscr⟩
  cases hstep <;> simp_all [blockedState]

/-- Mutual-exclusion invariant tied to the two program counters: the refresh
task is inside `getMetrics` exactly while it holds `accessMu`, and the
scraper is streaming exactly while it holds `accessMu`. -/
def MuInv (s : ConcState) : Prop :=
  (s.refresher = .inGetMetrics ↔ s.muHolder = some .refresher) ∧
  (s.scraper = .streaming ↔ s.muHolder = some .scraper)

theorem muInv_init : MuInv initState := by
  constructor <;> simp [initState]

theorem muInv_step {s t : ConcState} (hs : MuInv s) (h : ConcStep s t) :
    MuInv t := by
  obtain ⟨h1, h2⟩ := hs
  cases h with
  | trigger hsc =>
    by_cases hr : s.refresher = .notSpawned <;> constructor <;> simp_all
  | refresherLock ha hmu => constructor <;> simp_all
  | refresherFinish ha => constructor <;> simp_all
  | scraperLock ha hmu => constructor <;> simp_all
  | scraperFinish ha => constructor <;> simp_all

theorem muInv_reaches {s u : ConcState} (h : Reaches s u) :
    MuInv s → MuInv u := by
  induction h with
  | refl s2 => exact id
  | step s2 t2 u2 hst htu ih => exact fun hs => ih (muInv_step hs hst)

/-- Claim C9 as amended.  The refresh trigger itself never blocks (a scrape
at the `atomicUpdate` call can always step, whatever the refresh task is
doing), and a scrape serves the cached state without waiting whenever no
refresh holds the cache mutex; but the emission path acquires the same
`accessMu` that an in-flight refresh holds for its entire query pass, so a
scrape that reaches the emission lock while a refresh task is inside
`getMetrics` cannot stream until that refresh finishes — at which point it
can: the finishing step frees the mutex and the scraper's acquisition becomes
enabled. -/
theorem scrape_trigger_nonblocking_emission_waits :
    (∀ s : ConcState, s.scraper = .atTrigger → ∃ t, ConcStep s t) ∧
    (∀ s : ConcState, s.scraper = .atLock → s.muHolder = none →
       ∃ t, ConcStep s t ∧ t.scraper = .streaming) ∧
    (∀ s : ConcState, Reaches initState s → s.refresher = .inGetMetrics →
       s.scraper = .atLock →
       (¬ ∃ t, ConcStep s t ∧ t.scraper = .streaming) ∧
       (∃ t, ConcStep s t ∧ t.refresher = .notSpawned ∧ t.muHolder = none ∧
          ∃ u, ConcStep t u ∧ u.scraper = .streaming)) := by
  refine ⟨fun s hs => ⟨_, ConcStep.trigger s hs⟩,
    fun s hs hmu => ⟨_, ConcStep.scraperLock s hs hmu, rfl⟩,
    fun s hreach hr hsc => ?_⟩
  have hinv := muInv_reaches hreach muInv_init
  have hmu : s.muHolder = some .refresher := hinv.1.mp hr
  constructor
  · rintro ⟨t, hstep, hscr⟩
    cases hstep <;> simp_all
  · refine ⟨_, ConcStep.refresherFinish s hr, rfl, rfl, ?_⟩
    exact ⟨_, ConcStep.scraperLock _ hsc rfl, rfl⟩

/-- Witness for claim C9's amended theorem at the concrete blocked state. -/
theorem scrape_trigger_nonblocking_emission_waits_witness :
    (¬ ∃ t, ConcStep blockedState t ∧ t.scraper = .streaming) ∧
    (∃ t, ConcStep blockedState t ∧ t.refresher = .notSpawned ∧
       t.muHolder = none ∧ ∃ u, ConcStep t u ∧ u.scraper = .streaming) :=
  scrape_trigger_nonblocking_emission_waits.2.2 blockedState
    reaches_blockedState rfl rfl

end GraphqlExporter
